import Mathlib

/-!
Shallow embedding of the game-recommendation-system repository
(`src/api/api_utils.py`, `src/data_preparation/data_preparation_utils.py`,
`src/data_transformation/validation.py`, `src/eda/data_analysis_utils.py`,
`src/main.py`) together with proofs about the functions the specification
describes.

Conventions of the embedding:
- Python scalar values and decoded literals are modelled by `PyVal`;
  Python floats are idealised as rationals (`ℚ`), `NaN`/`None` are both
  modelled by `PyVal.none` (they are interchangeable for the null checks
  the code performs).
- A pandas `DataFrame` is modelled by `Table`: a column-name list and a
  list of rows, each row a positional list of cells; the default
  `RangeIndex` is modelled by list position.
- A Python function that can raise is modelled with an explicit error
  constructor; a function that returns a `{"error": ...}` dict is modelled
  with a distinct constructor, so the two failure modes stay observable.
- `ast.literal_eval` is modelled by `parsePyLiteral`, a parser for the
  fragment of the constant-literal grammar that the datasets use
  (integers, decimal floats, `True`/`False`/`None`, quoted strings without
  escape sequences, and nested lists with optional trailing commas).
  `datetime.strptime(_, "%Y-%m-%d")` is modelled by `parseDate`, which
  follows CPython's `_strptime` regular expressions (`%Y` is exactly four
  digits, `%m`/`%d` are one or two digits) plus `datetime`'s range
  validation (year ≥ 1, day bounded by the Gregorian month length).
-/

/-- A Python value as it occurs in the datasets: ints, floats (idealised as
rationals), strings, booleans, lists, and `None`/`NaN`. -/
inductive PyVal where
  | int (n : ℤ)
  | rat (q : ℚ)
  | str (s : String)
  | bool (b : Bool)
  | list (xs : List PyVal)
  | none

/-- The apostrophe character, used when rebuilding Python error messages. -/
def sqc : Char := Char.ofNat 39

/-- The apostrophe as a one-character string. -/
def sqs : String := String.mk [sqc]

/-- Numeric value of a list of decimal digit characters. -/
def digitsToNat (ds : List Char) : ℕ :=
  ds.foldl (fun a c => a * 10 + (c.toNat - 48)) 0

/-- Characters `str.split()` treats as whitespace (ASCII fragment). -/
def isPySpace (c : Char) : Bool :=
  c = ' ' || c = '\t' || c = '\n' || c = '\r' || c = Char.ofNat 11 || c = Char.ofNat 12

/-- Whitespace skipped inside a Python expression being parsed. -/
def skipWs (cs : List Char) : List Char :=
  cs.dropWhile (fun c => isPySpace c)

/-- `str.split()` with no separator: maximal runs of non-whitespace. -/
def pySplitWsAux : List Char → List Char → List String
  | [], cur => if cur.isEmpty then [] else [String.mk cur.reverse]
  | c :: rest, cur =>
    if isPySpace c then
      if cur.isEmpty then pySplitWsAux rest []
      else String.mk cur.reverse :: pySplitWsAux rest []
    else pySplitWsAux rest (c :: cur)

/-- `str.split()` with no separator argument. -/
def pySplitWs (s : String) : List String :=
  pySplitWsAux s.toList []

/-- Parse an unsigned decimal number (digits, optional fractional part) at
the head of the character stream.  Returns the value and the rest.
A number with a dot is a Python float (here a rational); one without is an
int. -/
def parseNumTail (cs : List Char) : Option (PyVal × List Char) :=
  let intDigits := cs.takeWhile Char.isDigit
  let rest1 := cs.dropWhile Char.isDigit
  match rest1 with
  | '.' :: rest2 =>
    let fracDigits := rest2.takeWhile Char.isDigit
    let rest3 := rest2.dropWhile Char.isDigit
    if intDigits.isEmpty && fracDigits.isEmpty then Option.none
    else
      some (PyVal.rat ((digitsToNat intDigits : ℚ) +
        (digitsToNat fracDigits : ℚ) / (10 ^ fracDigits.length : ℕ)), rest3)
  | _ =>
    if intDigits.isEmpty then Option.none
    else some (PyVal.int (digitsToNat intDigits : ℤ), rest1)

/-- Negate the numeric payload of a parsed number (for a unary minus). -/
def pyNegate : PyVal → PyVal
  | .int n => .int (-n)
  | .rat q => .rat (-q)
  | v => v

/-- Read a quoted string with quote character `q`; escape sequences are not
supported by this model (they do not occur in the datasets), so a backslash
makes the parse fail. -/
def parseStrTail (q : Char) : List Char → Option (String × List Char)
  | [] => Option.none
  | c :: rest =>
    if c = q then some ("", rest)
    else if c = '\\' then Option.none
    else match parseStrTail q rest with
      | some (s, r) => some (String.mk (c :: s.toList), r)
      | _ => Option.none

mutual

/-- One literal of the constant-literal grammar (`ast.literal_eval`'s input
language, restricted to the fragment the datasets use). -/
def parseLit : ℕ → List Char → Option (PyVal × List Char)
  | 0, _ => Option.none
  | fuel + 1, cs =>
    match skipWs cs with
    | '[' :: rest => parseElems fuel rest
    | '-' :: rest =>
      match parseNumTail (skipWs rest) with
      | some (v, r) => some (pyNegate v, r)
      | _ => Option.none
    | '+' :: rest => parseNumTail (skipWs rest)
    | 'T' :: 'r' :: 'u' :: 'e' :: rest => some (PyVal.bool true, rest)
    | 'F' :: 'a' :: 'l' :: 's' :: 'e' :: rest => some (PyVal.bool false, rest)
    | 'N' :: 'o' :: 'n' :: 'e' :: rest => some (PyVal.none, rest)
    | '"' :: rest =>
      match parseStrTail '"' rest with
      | some (s, r) => some (PyVal.str s, r)
      | _ => Option.none
    | c :: rest =>
      if c = sqc then
        match parseStrTail sqc rest with
        | some (s, r) => some (PyVal.str s, r)
        | _ => Option.none
      else parseNumTail (c :: rest)
    | [] => Option.none

/-- Elements of a list literal, after the opening bracket; allows the
trailing comma Python permits. -/
def parseElems : ℕ → List Char → Option (PyVal × List Char)
  | 0, _ => Option.none
  | fuel + 1, cs =>
    match skipWs cs with
    | ']' :: rest => some (PyVal.list [], rest)
    | cs' =>
      match parseLit fuel cs' with
      | some (v, r) => parseElemsRest fuel v [] r
      | _ => Option.none

/-- Continue a list literal after one parsed element. -/
def parseElemsRest : ℕ → PyVal → List PyVal → List Char → Option (PyVal × List Char)
  | 0, _, _, _ => Option.none
  | fuel + 1, v, acc, cs =>
    match skipWs cs with
    | ']' :: rest => some (PyVal.list ((v :: acc).reverse), rest)
    | ',' :: rest =>
      match skipWs rest with
      | ']' :: rest2 => some (PyVal.list ((v :: acc).reverse), rest2)
      | cs2 =>
        match parseLit fuel cs2 with
        | some (v2, r) => parseElemsRest fuel v2 (v :: acc) r
        | _ => Option.none
    | _ => Option.none

end

/-- Model of `ast.literal_eval` on a string: parse a whole-string constant
literal, `Option.none` standing for the `ValueError`/`SyntaxError` cases. -/
def parsePyLiteral (s : String) : Option PyVal :=
  match parseLit (2 * s.length + 2) s.toList with
  | some (v, rest) => if (skipWs rest).isEmpty then some v else Option.none
  | _ => Option.none

/-- `safe_literal_eval` (src/api/api_utils.py): try `ast.literal_eval`,
return the original value when that raises `ValueError`/`SyntaxError`.
On a non-string argument `literal_eval` raises `ValueError` (malformed
node), which the `except` clause also catches, so non-strings pass
through unchanged. -/
def safe_literal_eval (v : PyVal) : PyVal :=
  match v with
  | .str s =>
    match parsePyLiteral s with
    | some r => r
    | _ => .str s
  | v => v

example : safe_literal_eval (PyVal.str "[1, 2, 3]") =
    PyVal.list [PyVal.int 1, PyVal.int 2, PyVal.int 3] := rfl
example : safe_literal_eval (PyVal.str "hello") = PyVal.str "hello" := rfl
example : parsePyLiteral "[1,]" = some (PyVal.list [PyVal.int 1]) := rfl
example : safe_literal_eval (PyVal.str "[True, False]") =
    PyVal.list [PyVal.bool true, PyVal.bool false] := rfl

/-- A calendar date as produced by `datetime.strptime(_, "%Y-%m-%d")`. -/
structure PyDate where
  y : ℕ
  m : ℕ
  d : ℕ
deriving DecidableEq, Repr

/-- Gregorian leap-year rule (as used by `datetime`). -/
def leapYear (y : ℕ) : Bool :=
  y % 4 = 0 && (y % 100 ≠ 0 || y % 400 = 0)

/-- Number of days in a month (as validated by the `datetime` constructor). -/
def daysInMonth (y m : ℕ) : ℕ :=
  if m = 2 then (if leapYear y then 29 else 28)
  else if m = 4 || m = 6 || m = 9 || m = 11 then 30
  else 31

/-- Parse one or two digits whose value lies in `1..maxv`, following the
`_strptime` regular expressions for `%m` (`1[0-2]|0[1-9]|[1-9]`) and `%d`
(`3[01]|[12]\d|0[1-9]|[1-9]`): a two-digit match requires the two-digit
value to be in range, otherwise the regex backtracks to a single nonzero
digit. -/
def parseTwoDigitField (maxv : ℕ) : List Char → Option (ℕ × List Char)
  | c1 :: c2 :: rest =>
    if c1.isDigit && c2.isDigit then
      let v := digitsToNat [c1, c2]
      if 1 ≤ v && v ≤ maxv then some (v, rest)
      else if c1 ≠ '0' then some (digitsToNat [c1], c2 :: rest)
      else Option.none
    else if c1.isDigit && c1 ≠ '0' then some (digitsToNat [c1], c2 :: rest)
    else Option.none
  | [c1] =>
    if c1.isDigit && c1 ≠ '0' then some (digitsToNat [c1], []) else Option.none
  | [] => Option.none

/-- Model of `datetime.strptime(s, "%Y-%m-%d")`: exactly four year digits,
dashes, a 1-2 digit month in `1..12`, a 1-2 digit day in `1..31`, nothing
left over, then `datetime`'s own validation (year at least `MINYEAR = 1`,
day within the month's length).  `Option.none` models the raised
`ValueError`. -/
def parseDate (s : String) : Option PyDate :=
  match s.toList with
  | a :: b :: c :: d :: '-' :: rest =>
    if a.isDigit && b.isDigit && c.isDigit && d.isDigit then
      let y := digitsToNat [a, b, c, d]
      match parseTwoDigitField 12 rest with
      | some (m, '-' :: rest2) =>
        match parseTwoDigitField 31 rest2 with
        | some (dd, []) =>
          if 1 ≤ y && dd ≤ daysInMonth y m then some ⟨y, m, dd⟩ else Option.none
        | _ => Option.none
      | _ => Option.none
    else Option.none
  | _ => Option.none

/-- Key on which `datetime` objects compare; for validated fields
(`m ≤ 12`, `d ≤ 31`) this ordering coincides with chronological order. -/
def dateKey (d : PyDate) : ℕ := d.y * 10000 + d.m * 100 + d.d

/-- Chronological `<=` on parsed dates (models `datetime.__le__`). -/
def dateLe (a b : PyDate) : Bool := dateKey a ≤ dateKey b

example : parseDate "2020-01-01" = some ⟨2020, 1, 1⟩ := rfl
example : parseDate "bad-date" = Option.none := rfl
example : parseDate "2021-02-29" = Option.none := rfl
example : parseDate "2020-02-29" = some ⟨2020, 2, 29⟩ := rfl
example : parseDate "2020-1-1" = some ⟨2020, 1, 1⟩ := rfl
example : parseDate "2020-13-01" = Option.none := rfl

/-- Python's `round` to an integer: round-half-to-even, computed on the
numerator and denominator so that concrete values reduce in the kernel.
`f` is the floor of `q` and `rem/d` its fractional part. -/
def roundHalfEven (q : ℚ) : ℤ :=
  let n := q.num
  let d := (q.den : ℤ)
  let f := Int.fdiv n d
  let rem := n - f * d
  if 2 * rem < d then f
  else if d < 2 * rem then f + 1
  else if f % 2 = 0 then f else f + 1

/-- `round(q, 2)` on the rational idealisation of Python floats. -/
def roundTo2 (q : ℚ) : ℚ := Rat.divInt (roundHalfEven (q * 100)) 100

/-- Rounding an integer changes nothing. -/
theorem roundHalfEven_intCast (n : ℤ) : roundHalfEven (n : ℚ) = n := by
  simp [roundHalfEven, Rat.num_intCast, Rat.den_intCast, Int.fdiv_one]

/-- `round(n, 2)` on an integer-valued float is the identity. -/
theorem roundTo2_intCast (n : ℤ) : roundTo2 (n : ℚ) = n := by
  have h : ((n : ℚ) * 100) = ((n * 100 : ℤ) : ℚ) := by push_cast; ring
  rw [roundTo2, h, roundHalfEven_intCast, Rat.divInt_eq_div]
  push_cast
  field_simp

theorem roundTo2_zero : roundTo2 0 = 0 := by
  simpa using roundTo2_intCast 0

theorem roundTo2_hundred : roundTo2 100 = 100 := by
  simpa using roundTo2_intCast 100

/-- Numeric view of a Python value (`bool` is an `int` subclass, so
`True == 1` holds). -/
def pyNum : PyVal → Option ℚ
  | .int n => some (n : ℚ)
  | .rat q => some q
  | .bool b => some (if b then 1 else 0)
  | _ => Option.none

mutual

/-- Python `==` on the values of the datasets: numeric cross-type equality,
structural equality on strings, lists and `None`, `false` on mixed types.
(`NaN == NaN` is `False` in Python; `PyVal.none` plays the role of `None`
here, for which `None == None` is `True` — the code never compares `NaN`
with `==`.) -/
def pyEq : PyVal → PyVal → Bool
  | .list xs, .list ys => pyEqList xs ys
  | .str a, .str b => a = b
  | .none, .none => true
  | a, b =>
    match pyNum a, pyNum b with
    | some x, some y => x = y
    | _, _ => false

/-- Pointwise Python `==` on lists. -/
def pyEqList : List PyVal → List PyVal → Bool
  | [], [] => true
  | x :: xs, y :: ys => pyEq x y && pyEqList xs ys
  | _, _ => false

end

/-- Python truthiness of a value (`if v:`). -/
def pyTruthy : PyVal → Bool
  | .int n => n ≠ 0
  | .rat q => q ≠ 0
  | .str s => s ≠ ""
  | .bool b => b
  | .list xs => !xs.isEmpty
  | .none => false

/-- `pd.isna` on a cell (`PyVal.none` models both `None` and `NaN`). -/
def isNullV : PyVal → Bool
  | .none => true
  | _ => false

/-- A pandas DataFrame: named columns and positional rows (the default
`RangeIndex` is the list position). -/
structure Table where
  cols : List String
  rows : List (List PyVal)

/-- Index of a column name in the header (the position `df[c]` reads). -/
def Table.colIdx (t : Table) (c : String) : ℕ :=
  t.cols.findIdx (fun x => x = c)

/-- Cell of row `i`, column `k` (as an `Option`, for stating frame
properties). -/
def Table.cellAt (t : Table) (i k : ℕ) : Option PyVal :=
  (t.rows.get? i).bind (fun r => r.get? k)

/-- Outcome of a normalizer call: a value, a structured `{"error": ...}`
dict, or a raised exception. -/
inductive NormResult (α : Type) where
  | ok (a : α)
  | errorValue (msg : String)
  | raised (msg : String)

/-- Is the outcome the structured error dict (`{"error": msg}`)? -/
def NormResult.isErrorValue {α : Type} : NormResult α → Bool
  | .errorValue _ => true
  | _ => false

/-- The message of the uniform missing-column error,
`f"Column '{column_name}' not found in the DataFrame"`. -/
def missingColMsg (c : String) : String :=
  "Column " ++ sqs ++ c ++ sqs ++ " not found in the DataFrame"

namespace Api

/-- One row of `user_data_1.csv` as `pd.read_csv` loads it: `item_id` and
`recommend` are literal-encoded strings (or `NaN`, modelled by
`Option.none`), `items_count` is a number (or `NaN`). -/
structure UserRow where
  user_id : String
  item_id : Option String
  recommend : Option String
  items_count : Option ℚ

/-- One row of `games_data_1.csv`: the game `id` (compared with Python `==`
against decoded `item_id` entries) and its `price`. -/
structure GameRow where
  id : PyVal
  price : ℚ

/-- Body of the total-price loop: if any games row matches the id, add the
sum of the matching rows' prices. -/
def priceStep (games : List GameRow) (acc : ℚ) (idv : PyVal) : ℚ :=
  let matching := games.filter (fun g => pyEq g.id idv)
  if matching.isEmpty then acc else acc + (matching.map (fun g => g.price)).sum

/-- The total-price loop of `money_spent`: when the decoded `item_id` is a
non-empty list, sum the `price` column of the games rows matching each id;
ids matching no games row add nothing. -/
def totalPrice (games : List GameRow) (id_item : PyVal) : ℚ :=
  match id_item with
  | .list l => if l.isEmpty then 0 else l.foldl (priceStep games) 0
  | _ => 0

/-- The recommendation-count loop of `money_spent`: count truthy entries of
the decoded `recommend` value when it is a non-empty list. -/
def countRecommend (id_recommend : PyVal) : ℕ :=
  match id_recommend with
  | .list l => if l.isEmpty then 0 else (l.filter pyTruthy).length
  | _ => 0

/-- `money_spent` (src/api/api_utils.py): filter the users table on
`user_id`; when rows match, take the first row's `item_id`/`recommend`
cells unless any matching row has `NaN` there (then `0`), decode them with
`safe_literal_eval`; when no row matches, all three extracted values are
`0`.  Returns `(round(total_price, 2), round(percentage, 2))`. -/
def money_spent (users : List UserRow) (games : List GameRow) (uid : String) : ℚ × ℚ :=
  let user_data := users.filter (fun r => r.user_id = uid)
  let vals : PyVal × PyVal × ℚ :=
    match user_data with
    | [] => (PyVal.int 0, PyVal.int 0, 0)
    | first :: _ =>
      (safe_literal_eval
          (if user_data.any (fun r => r.item_id.isNone) then PyVal.int 0
           else PyVal.str (first.item_id.getD "")),
       safe_literal_eval
          (if user_data.any (fun r => r.recommend.isNone) then PyVal.int 0
           else PyVal.str (first.recommend.getD "")),
       if user_data.any (fun r => r.items_count.isNone) then 0
       else first.items_count.getD 0)
  let total_price := totalPrice games vals.1
  let num_rcmnd := countRecommend vals.2.1
  let percentage := if vals.2.2 ≠ 0 then 100 * ((num_rcmnd : ℚ) / vals.2.2) else 0
  (roundTo2 total_price, roundTo2 percentage)

/-- The enumeration loop of `date_in_range`: indices of entries that parse
as `yyyy-mm-dd` dates lying in `[start, end]`; unparseable entries are
skipped. -/
def dateInRangeAux (s e : PyDate) : List String → ℕ → List ℕ
  | [], _ => []
  | dstr :: rest, i =>
    match parseDate dstr with
    | some dt =>
      if dateLe s dt && dateLe dt e then i :: dateInRangeAux s e rest (i + 1)
      else dateInRangeAux s e rest (i + 1)
    | _ => dateInRangeAux s e rest (i + 1)

/-- `date_in_range` (src/api/api_utils.py): returns the `v_in_list` flag
(set exactly when some index was collected) and the list of matching
indices. -/
def date_in_range (dates_list : List String) (s e : PyDate) : Bool × List ℕ :=
  let idxs := dateInRangeAux s e dates_list 0
  (!idxs.isEmpty, idxs)

/-- One row of `user_data_2.csv` after `applymap(safe_literal_eval)`:
`posted` a list of date strings, `recommend` a list of booleans. -/
structure ReviewRow where
  posted : List String
  recommend : List Bool

/-- The per-row tally step of `num_user_review`: bump the user count when
the row has any in-range date, then for each matching index that is a
valid index into `recommend`, tally positive or negative. -/
def reviewStep (s e : PyDate) (acc : ℕ × ℕ × ℕ) (row : ReviewRow) : ℕ × ℕ × ℕ :=
  let (count, pos, neg) := acc
  let vi := date_in_range row.posted s e
  let count' := if vi.1 then count + 1 else count
  let tallies :=
    vi.2.foldl
      (fun (pn : ℕ × ℕ) idx =>
        if idx < row.recommend.length then
          if row.recommend.getD idx false then (pn.1 + 1, pn.2) else (pn.1, pn.2 + 1)
        else pn)
      (pos, neg)
  (count', tallies.1, tallies.2)

/-- The main loop and percentage computation of `num_user_review`, after
the date range has been parsed. -/
def num_user_review_core (rows : List ReviewRow) (s e : PyDate) : ℕ × ℚ :=
  let (count, pos, neg) := rows.foldl (reviewStep s e) (0, 0, 0)
  let percentage : ℚ :=
    if pos + neg ≠ 0 then ((pos : ℚ) / ((pos : ℚ) + (neg : ℚ))) * 100 else 0
  (count, roundTo2 percentage)

/-- Message of the `ValueError` raised when a date token fails to parse. -/
def invalidDateMsg : String :=
  "Invalid date format in date_range. Use " ++ sqs ++ "yyyy-mm-dd" ++ sqs ++ " format."

/-- Message of the uncaught `ValueError` raised by the tuple unpacking
`start_date, end_date = dates.split()` when the token count is not 2. -/
def unpackErrMsg (n : ℕ) : String :=
  if n < 2 then "not enough values to unpack (expected 2, got " ++ toString n ++ ")"
  else "too many values to unpack (expected 2)"

/-- `num_user_review` (src/api/api_utils.py): split the argument on
whitespace into two tokens (any other token count raises the unpacking
`ValueError` outside the `try`), parse both as `yyyy-mm-dd` (a failure
raises the invalid-format `ValueError`), then run the row loop. -/
def num_user_review (rows : List ReviewRow) (dates : String) : Except String (ℕ × ℚ) :=
  match pySplitWs dates with
  | [a, b] =>
    match parseDate a, parseDate b with
    | some s, some e => .ok (num_user_review_core rows s e)
    | _, _ => .error invalidDateMsg
  | toks => .error (unpackErrMsg toks.length)

end Api

/-- `pd.to_numeric` on a string: an optionally signed decimal integer or
decimal float; the empty string is converted to `NaN` (`convert_empty`);
anything else raises (`Option.none`). -/
def pdToNumericStr (s : String) : Option PyVal :=
  if s = "" then some PyVal.none
  else
    let cs := s.toList
    let core := fun (cs2 : List Char) (neg : Bool) =>
      match parseNumTail cs2 with
      | some (v, []) => some (if neg then pyNegate v else v)
      | _ => Option.none
    match cs with
    | '-' :: rest => core rest true
    | '+' :: rest => core rest false
    | _ => core cs false

/-- `pd.to_numeric` on a scalar cell: numbers and booleans come back
unchanged, `None`/`NaN` becomes `NaN`, strings are parsed, anything else
raises. -/
def pdToNumericScalar : PyVal → Option PyVal
  | .int n => some (.int n)
  | .rat q => some (.rat q)
  | .bool b => some (.bool b)
  | .none => some .none
  | .str s => pdToNumericStr s
  | .list _ => Option.none

/-- Zero-pad the decimal representation of `n` to width `w` (as
`strftime`'s `%Y`/`%m`/`%d` do). -/
def padNum (w n : ℕ) : String :=
  let s := toString n
  String.mk (List.replicate (w - s.length) '0') ++ s

namespace DataPrep

/-- `convert_to_numeric` (src/data_preparation/data_preparation_utils.py):
values already of type `int`/`float` pass through; otherwise try
`pd.to_numeric`, and on `ValueError`/`TypeError` flag the failure and keep
the original value.  Returns `(msj_fail, value)`. -/
def convert_to_numeric (v : PyVal) : Bool × PyVal :=
  match v with
  | .int n => (false, .int n)
  | .rat q => (false, .rat q)
  | v =>
    match pdToNumericScalar v with
    | some v' => (false, v')
    | _ => (true, v)

/-- The enumerated loop of `convert_list_to_numeric`, accumulating the
overall failure flag, the per-index failure report and the converted
list. -/
def convert_list_to_numeric_aux : List PyVal → ℕ → Bool × List (ℕ × PyVal) × List PyVal
  | [], _ => (false, [], [])
  | v :: rest, i =>
    let (mv, av) := convert_to_numeric v
    let (m, rep, out) := convert_list_to_numeric_aux rest (i + 1)
    (mv || m, (if mv then (i, av) :: rep else rep), av :: out)

/-- `convert_list_to_numeric`: convert each element, reporting the index
and (unconverted) value of each failure. -/
def convert_list_to_numeric (l : List PyVal) : Bool × List (ℕ × PyVal) × List PyVal :=
  convert_list_to_numeric_aux l 0

/-- A row's entry in a conversion failure report: the original scalar, or
the nested per-element report of a list cell. -/
inductive CellReport where
  | scalar (v : PyVal)
  | nested (r : List (ℕ × PyVal))

/-- Summary dict returned by the column conversion functions. -/
structure ConvSummary where
  total_rows : ℕ
  column_name : String
  num_failed_conversions : ℕ
  report : List (ℕ × CellReport)

/-- Converted value of one cell of the target column (list cells
elementwise, scalars via `convert_to_numeric`). -/
def numericCellConv (v : PyVal) : PyVal :=
  match v with
  | .list xs => .list (convert_list_to_numeric xs).2.2
  | v => (convert_to_numeric v).2

/-- The `iterrows` loop of `convert_column_to_numeric`: builds the failure
report and the `converted_values` column, row by row. -/
def convNumRows (j : ℕ) : List (List PyVal) → ℕ → List (ℕ × CellReport) × List PyVal
  | [], _ => ([], [])
  | row :: rest, idx =>
    let value := row.getD j PyVal.none
    let entry : Option CellReport :=
      match value with
      | .list xs => if (convert_list_to_numeric xs).1 then
          some (.nested (convert_list_to_numeric xs).2.1) else Option.none
      | v => if (convert_to_numeric v).1 then some (.scalar v) else Option.none
    let (rep, vals) := convNumRows j rest (idx + 1)
    ((match entry with | some e => (idx, e) :: rep | _ => rep), numericCellConv value :: vals)

/-- `dataframe[column_name] = converted_values`: replace column `j` of each
row by the corresponding entry of `vals`. -/
def setCol (rows : List (List PyVal)) (j : ℕ) (vals : List PyVal) : List (List PyVal) :=
  List.zipWith (fun row v => row.set j v) rows vals

/-- `convert_column_to_numeric`: structured error when the column is
missing; otherwise convert the column in place and return the mutated
table with the summary. -/
def convert_column_to_numeric (t : Table) (c : String) : NormResult (Table × ConvSummary) :=
  if c ∈ t.cols then
    let j := t.colIdx c
    let (report, vals) := convNumRows j t.rows 0
    let t' : Table := ⟨t.cols, setCol t.rows j vals⟩
    .ok (t', { total_rows := t'.rows.length, column_name := c,
               num_failed_conversions := report.length, report := report })
  else .errorValue (missingColMsg c)

/-- `convert_to_date` with the default pattern list `["%Y-%m-%d"]` (the
only patterns the repository uses): reformat a parsed date as zero-padded
`yyyy-mm-dd`; non-strings and unparseable strings come back unchanged and
flagged.  Returns `(converted_value, success)`. -/
def convert_to_date (v : PyVal) : PyVal × Bool :=
  match v with
  | .str s =>
    match parseDate s with
    | some d =>
      (.str (padNum 4 d.y ++ "-" ++ padNum 2 d.m ++ "-" ++ padNum 2 d.d), true)
    | _ => (.str s, false)
  | v => (v, false)

/-- The enumerated loop of `convert_list_to_dates`; `success` is true only
when every element converted. -/
def convert_list_to_dates_aux : List PyVal → ℕ → Bool × List (ℕ × PyVal) × List PyVal
  | [], _ => (true, [], [])
  | v :: rest, i =>
    let (cv, okv) := convert_to_date v
    let (succ, rep, out) := convert_list_to_dates_aux rest (i + 1)
    (okv && succ, (if okv then rep else (i, v) :: rep), cv :: out)

/-- `convert_list_to_dates` (default patterns). -/
def convert_list_to_dates (l : List PyVal) : Bool × List (ℕ × PyVal) × List PyVal :=
  convert_list_to_dates_aux l 0

/-- Converted value of one cell of the target column for date coercion. -/
def dateCellConv (v : PyVal) : PyVal :=
  match v with
  | .list xs => .list (convert_list_to_dates xs).2.2
  | v => (convert_to_date v).1

/-- The `iterrows` loop of `convert_column_to_dates` (note the inverted
flag polarity compared with the numeric version: the report records rows
whose flag is `false`). -/
def convDateRows (j : ℕ) : List (List PyVal) → ℕ → List (ℕ × CellReport) × List PyVal
  | [], _ => ([], [])
  | row :: rest, idx =>
    let value := row.getD j PyVal.none
    let entry : Option CellReport :=
      match value with
      | .list xs => if (convert_list_to_dates xs).1 then Option.none
          else some (.nested (convert_list_to_dates xs).2.1)
      | v => if (convert_to_date v).2 then Option.none else some (.scalar v)
    let (rep, vals) := convDateRows j rest (idx + 1)
    ((match entry with | some e => (idx, e) :: rep | _ => rep), dateCellConv value :: vals)

/-- `convert_column_to_dates` (default patterns): structured error when the
column is missing; otherwise convert in place and return the summary. -/
def convert_column_to_dates (t : Table) (c : String) : NormResult (Table × ConvSummary) :=
  if c ∈ t.cols then
    let j := t.colIdx c
    let (report, vals) := convDateRows j t.rows 0
    let t' : Table := ⟨t.cols, setCol t.rows j vals⟩
    .ok (t', { total_rows := t'.rows.length, column_name := c,
               num_failed_conversions := report.length, report := report })
  else .errorValue (missingColMsg c)

end DataPrep

/-- Number of occurrences (Python `==`) of `v` in a column. -/
def colCount (col : List PyVal) (v : PyVal) : ℕ :=
  (col.filter (fun w => pyEq v w)).length

/-- Distinct values of a list in order of first occurrence (Python `==`). -/
def distinctFirsts : List PyVal → List PyVal
  | [] => []
  | v :: rest =>
    if (distinctFirsts rest).isEmpty then [v]
    else v :: (distinctFirsts rest).filter (fun w => !(pyEq v w))

/-- Null count of a whole row (`df.isnull().sum(axis=1)`). -/
def rowNullCount (r : List PyVal) : ℕ := (r.filter isNullV).length

/-- Non-null count of a whole row (`df.notnull().sum(axis=1)`). -/
def rowNotNullCount (r : List PyVal) : ℕ := (r.filter (fun v => !(isNullV v))).length

/-- Descending order on count, used for the duplicate summaries. -/
def descCount (a b : PyVal × ℕ) : Prop := b.2 ≤ a.2

instance : DecidableRel descCount :=
  fun a b => inferInstanceAs (Decidable (b.2 ≤ a.2))

namespace DataPrep

/-- `check_duplicates_summary`: structured error when the column is
missing; otherwise the occurrence counts of the values that occur more
than once, sorted by descending count (`value_counts` followed by
`sort_values(ascending=False)`). -/
def check_duplicates_summary (t : Table) (c : String) : NormResult (List (PyVal × ℕ)) :=
  if c ∈ t.cols then
    let j := t.colIdx c
    let col := t.rows.map (fun r => r.getD j PyVal.none)
    let dup := col.filter (fun v => 2 ≤ colCount col v)
    let entries := (distinctFirsts dup).map (fun v => (v, colCount dup v))
    .ok (List.insertionSort descCount entries)
  else .errorValue (missingColMsg c)

/-- Summary dict returned by `check_none_values`
(`rows_below_threshold` is `None` unless `check_other_columns`). -/
structure NoneSummary where
  column_name : String
  total_rows : ℕ
  num_none_values : ℕ
  rows_below_threshold : Option ℕ

/-- `check_none_values`: structured error when the column is missing;
otherwise count nulls in the column and, on request, the rows whose
non-null cell count is below `num_columns - min_none_null_values`. -/
def check_none_values (t : Table) (c : String)
    (check_other_columns : Bool) (min_none_null_values : ℕ) : NormResult NoneSummary :=
  if c ∈ t.cols then
    let j := t.colIdx c
    let col := t.rows.map (fun r => r.getD j PyVal.none)
    let num_none := (col.filter isNullV).length
    let rows_below :=
      if check_other_columns then
        (t.rows.filter (fun r =>
          (rowNotNullCount r : ℤ) < (t.cols.length : ℤ) - (min_none_null_values : ℤ))).length
      else 0
    .ok { column_name := c, total_rows := t.rows.length, num_none_values := num_none,
          rows_below_threshold := if check_other_columns then some rows_below else Option.none }
  else .errorValue (missingColMsg c)

/-- `convert_special_strings`' per-cell rule: nulls pass through; a string
matching a special string case-insensitively becomes `converted_value`;
any other string is parsed as a number or reported; non-strings pass
through.  Returns the new cell and the report entry if the cell failed. -/
def specialCell (specials_lower : List String) (conv : PyVal) (v : PyVal) :
    PyVal × Bool :=
  match v with
  | .none => (.none, false)
  | .str s =>
    if s.toLower ∈ specials_lower then (conv, false)
    else
      match pdToNumericStr s with
      | some v' => (v', false)
      | _ => (.str s, true)
  | v => (v, false)

/-- The `apply(convert_value, axis=1)` loop of `convert_special_strings`. -/
def specialRows (specials_lower : List String) (conv : PyVal) (j : ℕ) :
    List (List PyVal) → ℕ → List (ℕ × PyVal) × List PyVal
  | [], _ => ([], [])
  | row :: rest, idx =>
    let value := row.getD j PyVal.none
    let (cv, failed) := specialCell specials_lower conv value
    let (rep, vals) := specialRows specials_lower conv j rest (idx + 1)
    ((if failed then (idx, value) :: rep else rep), cv :: vals)

/-- Summary dict returned by `convert_special_strings`. -/
structure SpecSummary where
  total_rows : ℕ
  column_name : String
  num_failed_conversions : ℕ
  report : List (ℕ × PyVal)

/-- `convert_special_strings`: structured error when the column is missing;
otherwise rewrite the column cellwise and return the summary. -/
def convert_special_strings (t : Table) (c : String)
    (special_strings : List String) (converted_value : PyVal) :
    NormResult (Table × SpecSummary) :=
  if c ∈ t.cols then
    let j := t.colIdx c
    let specials_lower := special_strings.map String.toLower
    let (report, vals) := specialRows specials_lower converted_value j t.rows 0
    let t' : Table := ⟨t.cols, setCol t.rows j vals⟩
    .ok (t', { total_rows := t.rows.length, column_name := c,
               num_failed_conversions := report.length, report := report })
  else .errorValue (missingColMsg c)

/-- The `drop_duplicates(subset=column_name, keep='first')` walk: keep a
row when its target-column value was not seen before (pandas treats null
cells as equal for this purpose, as does `pyEq` on `PyVal.none`). -/
def dedupRows (j : ℕ) (seen : List PyVal) : List (List PyVal) → List (List PyVal)
  | [] => []
  | row :: rest =>
    let v := row.getD j PyVal.none
    if seen.any (fun w => pyEq v w) then dedupRows j seen rest
    else row :: dedupRows j (v :: seen) rest

/-- `remove_duplicates`: RAISES `ValueError` (message with a trailing
period) when the column is missing — unlike the check/convert functions it
does not return the structured error dict.  Otherwise drops duplicate rows
by the target column, keeping first occurrences in order (the printed
summary is not modelled). -/
def remove_duplicates (t : Table) (c : String) : NormResult Table :=
  if c ∈ t.cols then
    .ok ⟨t.cols, dedupRows (t.colIdx c) [] t.rows⟩
  else .raised (missingColMsg c ++ ".")

/-- `remove_none_values` (src/data_preparation/data_preparation_utils.py):
RAISES `ValueError` when the column is missing; otherwise keeps exactly
the rows whose target-column cell is non-null
(`dataframe[dataframe[column_name].notnull()]`). -/
def remove_none_values (t : Table) (c : String) : NormResult Table :=
  if c ∈ t.cols then
    .ok ⟨t.cols, t.rows.filter (fun r => !(isNullV (r.getD (t.colIdx c) PyVal.none)))⟩
  else .raised (missingColMsg c)

end DataPrep

namespace Validation

/-- `remove_none_values` (src/data_transformation/validation.py): RAISES
`ValueError` when the column is missing.  Otherwise executes
`dataframe[column_name] = dataframe[column_name].dropna()` — modelled
faithfully as an index-aligned reassignment: `dropna` keeps the
`(index, value)` pairs with non-null value, and assigning the result back
writes each row's own value where its index survived and `NaN` where it
was dropped.  Then, if `remove_none_rows`, keeps only the rows whose total
null count is at most `min_none_values`. -/
def remove_none_values (t : Table) (c : String)
    (remove_none_rows : Bool) (min_none_values : ℕ) : NormResult Table :=
  if c ∈ t.cols then
    let j := t.colIdx c
    let col := t.rows.map (fun r => r.getD j PyVal.none)
    let kept := col.enum.filter (fun p => !(isNullV p.2))
    let newcol := (List.range col.length).map (fun i =>
      match kept.find? (fun p => p.1 = i) with
      | some p => p.2
      | _ => PyVal.none)
    let rows1 := DataPrep.setCol t.rows j newcol
    let rows2 :=
      if remove_none_rows then rows1.filter (fun r => rowNullCount r ≤ min_none_values)
      else rows1
    .ok ⟨t.cols, rows2⟩
  else .raised (missingColMsg c)

end Validation

/-! Insertion-ordered dictionaries of accumulated times, modelling the
Python `dict` that `correspond` builds. -/

/-- Lookup in an insertion-ordered dict (`key_val[id]` / `id in key_val`). -/
def dfind : List (String × ℚ) → String → Option ℚ
  | [], _ => Option.none
  | p :: rest, k => if p.1 = k then some p.2 else dfind rest k

/-- Membership test (`id in key_val`). -/
def dmem (d : List (String × ℚ)) (k : String) : Bool :=
  (dfind d k).isSome

/-- Lookup with default `0` (convenient for stating accumulation facts). -/
def dgetD0 (d : List (String × ℚ)) (k : String) : ℚ :=
  (dfind d k).getD 0

/-- `key_val[id] += time` / `key_val[id] = time`: add into an existing
entry in place, or append a new entry (Python dicts preserve insertion
order and keep an updated key's position). -/
def dictAdd (d : List (String × ℚ)) (k : String) (t : ℚ) : List (String × ℚ) :=
  if dmem d k then d.map (fun p => if p.1 = k then (p.1, p.2 + t) else p)
  else d ++ [(k, t)]

/-- `if id not in key_val: key_val[id] = 0`. -/
def dictInit0 (d : List (String × ℚ)) (k : String) : List (String × ℚ) :=
  if dmem d k then d else d ++ [(k, 0)]

/-- Sum of the times attached to key `k` in a list of `(id, time)` pairs
(the amount one consistent row contributes to `k`'s running total). -/
def pairSum (k : String) : List (String × ℚ) → ℚ
  | [] => 0
  | p :: rest => (if p.1 = k then p.2 else 0) + pairSum k rest

namespace Eda

/-- One step of `correspond`'s row loop
(src/eda/data_analysis_utils.py): equal lengths — fold every `(id, time)`
pair into the dict; otherwise an empty time-list initializes unseen ids to
`0`; otherwise the row index is appended to the report and nothing else
happens. -/
def applyRow (st : List (String × ℚ) × List ℕ) (idx : ℕ)
    (row : List String × List ℚ) : List (String × ℚ) × List ℕ :=
  if row.1.length = row.2.length then
    ((row.1.zip row.2).foldl (fun d p => dictAdd d p.1 p.2) st.1, st.2)
  else if row.2.length = 0 then
    (row.1.foldl (fun d id => dictInit0 d id) st.1, st.2)
  else (st.1, st.2 ++ [idx])

/-- The `iterrows` fold of `correspond`, carrying the running row index. -/
def correspondAux (rows : List (List String × List ℚ)) (i : ℕ)
    (st : List (String × ℚ) × List ℕ) : List (String × ℚ) × List ℕ :=
  match rows with
  | [] => st
  | r :: rest => correspondAux rest (i + 1) (applyRow st i r)

/-- `correspond`: the accumulated id-to-time dict and the list of
inconsistent row indices. -/
def correspond (rows : List (List String × List ℚ)) : List (String × ℚ) × List ℕ :=
  correspondAux rows 0 ([], [])

end Eda

namespace Api

/-- Descending order on aggregated time for the genre ranking. -/
def descTime (a b : String × ℚ) : Prop := b.2 ≤ a.2

instance : DecidableRel descTime :=
  fun a b => inferInstanceAs (Decidable (b.2 ≤ a.2))

instance : IsTotal (String × ℚ) descTime :=
  ⟨fun a b => (le_total b.2 a.2).elim Or.inl Or.inr⟩

instance : IsTrans (String × ℚ) descTime :=
  ⟨fun _ _ _ h1 h2 => le_trans h2 h1⟩

/-- 1-based position of the first entry named `g`, `0` when absent. -/
def rankAux (g : String) : List (String × ℚ) → ℕ → ℕ
  | [], _ => 0
  | p :: rest, i => if p.1 = g then i else rankAux g rest (i + 1)

/-- Modelled from the spec: `genre_rank` is imported by `src/main.py` from
`api.api_utils` but is not defined anywhere under `src/`.  Per the spec it
returns the 1-based rank of `genre_name` within genres ordered by
descending total aggregated time (rank 1 = largest total), matching
case-sensitively, and `0` when the genre is not present in the
aggregate. -/
def genre_rank (agg : List (String × ℚ)) (g : String) : ℕ :=
  rankAux g (List.insertionSort descTime agg) 1

end Api

/-! ## Theorems for the claims -/

/-- C6: the literal decoder never raises: a string holding a valid
constant literal decodes to the parsed value (`"[1, 2, 3]"` to the list
`[1, 2, 3]`), any other string comes back unchanged (`"hello"` to
`"hello"`), and non-string inputs pass through unchanged. -/
theorem claim_C6_safe_literal_eval :
    (∀ s r, parsePyLiteral s = some r → safe_literal_eval (PyVal.str s) = r) ∧
    (∀ s, parsePyLiteral s = Option.none → safe_literal_eval (PyVal.str s) = PyVal.str s) ∧
    (∀ v, (∀ s, v ≠ PyVal.str s) → safe_literal_eval v = v) ∧
    safe_literal_eval (PyVal.str "[1, 2, 3]") =
      PyVal.list [PyVal.int 1, PyVal.int 2, PyVal.int 3] ∧
    safe_literal_eval (PyVal.str "hello") = PyVal.str "hello" := by
  refine ⟨?_, ?_, ?_, rfl, rfl⟩
  · intro s r h
    simp [safe_literal_eval, h]
  · intro s h
    simp [safe_literal_eval, h]
  · intro v h
    cases v <;> first | rfl | exact absurd rfl (h _)

/-- Witness for C6 at a concrete literal string. -/
theorem claim_C6_witness :
    safe_literal_eval (PyVal.str "17") = PyVal.int 17 :=
  claim_C6_safe_literal_eval.1 "17" (PyVal.int 17) rfl

/-- C1: a `user_id` matching no row of the users table makes `money_spent`
return `(0, 0)` (the degenerate zero case), without raising. -/
theorem claim_C1_money_spent_absent_user
    (users : List Api.UserRow) (games : List Api.GameRow) (uid : String)
    (h : ∀ r ∈ users, r.user_id ≠ uid) :
    Api.money_spent users games uid = (0, 0) := by
  have hf : users.filter (fun r => r.user_id = uid) = [] := by
    rw [List.filter_eq_nil_iff]
    intro a ha
    simpa using h a ha
  simp [Api.money_spent, hf, Api.totalPrice, Api.countRecommend, roundTo2_zero]

/-- Witness for C1: a concrete table with no row for the queried user. -/
theorem claim_C1_witness :
    (∀ r ∈ [Api.UserRow.mk "u1" (some "[10]") (some "[True]") (some 2)],
        r.user_id ≠ "nobody") ∧
    Api.money_spent [Api.UserRow.mk "u1" (some "[10]") (some "[True]") (some 2)]
      [] "nobody" = (0, 0) :=
  ⟨by decide, claim_C1_money_spent_absent_user _ _ _ (by decide)⟩

/-- C8: inserting (equivalently, removing) an id that matches no row of
the games table anywhere in the decoded `item_id` list leaves
`money_spent`'s `total_price` unchanged — such ids contribute `0` and
cause no error. -/
theorem claim_C8_totalPrice_invariant
    (games : List Api.GameRow) (l1 l2 : List PyVal) (x : PyVal)
    (h : ∀ g ∈ games, pyEq g.id x = false) :
    Api.totalPrice games (PyVal.list (l1 ++ x :: l2)) =
      Api.totalPrice games (PyVal.list (l1 ++ l2)) := by
  have hfilt : games.filter (fun g => pyEq g.id x) = [] := by
    rw [List.filter_eq_nil_iff]
    intro g hg
    simp [h g hg]
  have hstep : ∀ acc, Api.priceStep games acc x = acc := by
    intro acc
    simp [Api.priceStep, hfilt]
  have key : ∀ init : ℚ,
      (l1 ++ x :: l2).foldl (Api.priceStep games) init =
        (l1 ++ l2).foldl (Api.priceStep games) init := by
    intro init
    rw [List.foldl_append, List.foldl_cons, hstep, ← List.foldl_append]
  by_cases hE : l1 ++ l2 = []
  · rcases List.append_eq_nil.mp hE with ⟨h1, h2⟩
    subst h1
    subst h2
    simp [Api.totalPrice, hstep]
  · simp [Api.totalPrice, hE, key 0]

/-- Witness for C8: the unmatched id `"zz"` does not change the total. -/
theorem claim_C8_witness :
    (∀ g ∈ [Api.GameRow.mk (PyVal.int 1) 5], pyEq g.id (PyVal.str "zz") = false) ∧
    Api.totalPrice [Api.GameRow.mk (PyVal.int 1) 5]
        (PyVal.list ([PyVal.int 1] ++ PyVal.str "zz" :: [])) =
      Api.totalPrice [Api.GameRow.mk (PyVal.int 1) 5] (PyVal.list ([PyVal.int 1] ++ [])) :=
  ⟨by decide, claim_C8_totalPrice_invariant _ _ _ _ (by decide)⟩

/-- C4 counterexample: on a missing column, `remove_duplicates` raises a
`ValueError` instead of returning the structured `{"error": ...}` value
the claim asserts for every normalizer function. -/
theorem claim_C4_counterexample :
    (DataPrep.remove_duplicates ⟨["a"], []⟩ "b").isErrorValue = false ∧
    DataPrep.remove_duplicates ⟨["a"], []⟩ "b" =
      .raised (missingColMsg "b" ++ ".") := by
  constructor <;> rfl

/-- C4 (amended): on a missing column, the check/convert normalizers
return the structured error value, while `remove_duplicates` and both
`remove_none_values` variants raise a `ValueError` carrying the same
message (`remove_duplicates` with a trailing period). -/
theorem claim_C4_missing_column_contract (t : Table) (c : String) (hc : c ∉ t.cols)
    (specials : List String) (conv : PyVal) (co : Bool) (mv : ℕ) (rb : Bool) (mv2 : ℕ) :
    DataPrep.convert_column_to_numeric t c = .errorValue (missingColMsg c) ∧
    DataPrep.convert_column_to_dates t c = .errorValue (missingColMsg c) ∧
    DataPrep.convert_special_strings t c specials conv = .errorValue (missingColMsg c) ∧
    DataPrep.check_duplicates_summary t c = .errorValue (missingColMsg c) ∧
    DataPrep.check_none_values t c co mv = .errorValue (missingColMsg c) ∧
    DataPrep.remove_duplicates t c = .raised (missingColMsg c ++ ".") ∧
    DataPrep.remove_none_values t c = .raised (missingColMsg c) ∧
    Validation.remove_none_values t c rb mv2 = .raised (missingColMsg c) := by
  refine ⟨?_, ?_, ?_, ?_, ?_, ?_, ?_, ?_⟩ <;>
    simp [DataPrep.convert_column_to_numeric, DataPrep.convert_column_to_dates,
      DataPrep.convert_special_strings, DataPrep.check_duplicates_summary,
      DataPrep.check_none_values, DataPrep.remove_duplicates,
      DataPrep.remove_none_values, Validation.remove_none_values, hc]

/-- Witness for the amended C4 at a concrete table and column. -/
theorem claim_C4_witness :
    ("b" ∉ (Table.mk ["a"] []).cols) ∧
    DataPrep.convert_column_to_numeric ⟨["a"], []⟩ "b" =
      .errorValue (missingColMsg "b") :=
  ⟨by decide,
   (claim_C4_missing_column_contract ⟨["a"], []⟩ "b" (by decide) [] PyVal.none
      false 4 false 4).1⟩

/-- C5: the `data_preparation` variant of `remove_none_values` does drop
every row with a null in the target column, but the `validation` variant
(the one with the optional whole-row removal) does not: reassigning
`df[col].dropna()` back into the column realigns on the index and restores
the nulls, so a row with a null in the target column survives, against the
claim and the function's own docstring. -/
theorem claim_C5_remove_none_values :
    Validation.remove_none_values ⟨["a", "b"], [[PyVal.none, PyVal.int 1]]⟩ "a" false 4 =
      .ok ⟨["a", "b"], [[PyVal.none, PyVal.int 1]]⟩ ∧
    DataPrep.remove_none_values ⟨["a", "b"], [[PyVal.none, PyVal.int 1]]⟩ "a" =
      .ok ⟨["a", "b"], []⟩ := by
  constructor <;> rfl

/-- C7: with the argument split into exactly two whitespace-separated
tokens, `num_user_review` raises the invalid-format `ValueError` exactly
when one of the tokens fails to parse as a `yyyy-mm-dd` date; when both
parse, it returns the computed pair with no format error. -/
theorem claim_C7_num_user_review_date_parse
    (rows : List Api.ReviewRow) (ds a b : String) (h : pySplitWs ds = [a, b]) :
    ((Api.num_user_review rows ds = .error Api.invalidDateMsg) ↔
      (parseDate a = Option.none ∨ parseDate b = Option.none)) ∧
    (∀ s e, parseDate a = some s → parseDate b = some e →
      Api.num_user_review rows ds = .ok (Api.num_user_review_core rows s e)) := by
  constructor
  · cases hpa : parseDate a <;> cases hpb : parseDate b <;>
      simp [Api.num_user_review, h, hpa, hpb]
  · intro s e hpa hpb
    simp [Api.num_user_review, h, hpa, hpb]

/-- C2: for the review record with
`posted = ["2020-01-01", "bad-date", "2020-02-01"]` and
`recommend = [true, false]`, any range containing both valid dates makes
`date_in_range` return the flag (record counted once) with matching
indices `[0, 2]` — the malformed entry is silently skipped — and the
tally loop counts one user and tallies only index 0 (one positive, index 2
being out of range of `recommend`), so the percentage is 100. -/
theorem claim_C2_num_user_review_record (s e : PyDate)
    (h1a : dateLe s ⟨2020, 1, 1⟩ = true) (h1b : dateLe ⟨2020, 1, 1⟩ e = true)
    (h2a : dateLe s ⟨2020, 2, 1⟩ = true) (h2b : dateLe ⟨2020, 2, 1⟩ e = true) :
    Api.date_in_range ["2020-01-01", "bad-date", "2020-02-01"] s e = (true, [0, 2]) ∧
    Api.num_user_review_core
        [Api.ReviewRow.mk ["2020-01-01", "bad-date", "2020-02-01"] [true, false]] s e =
      (1, 100) := by
  have hp1 : parseDate "2020-01-01" = some ⟨2020, 1, 1⟩ := rfl
  have hp2 : parseDate "bad-date" = Option.none := rfl
  have hp3 : parseDate "2020-02-01" = some ⟨2020, 2, 1⟩ := rfl
  have hdir : Api.date_in_range ["2020-01-01", "bad-date", "2020-02-01"] s e =
      (true, [0, 2]) := by
    simp [Api.date_in_range, Api.dateInRangeAux, hp1, hp2, hp3, h1a, h1b, h2a, h2b]
  refine ⟨hdir, ?_⟩
  simp [Api.num_user_review_core, Api.reviewStep, hdir]
  norm_num [roundTo2_hundred]

/-- Witness for C2 at the concrete range 2020-01-01 .. 2020-12-31. -/
theorem claim_C2_witness :
    dateLe ⟨2020, 1, 1⟩ ⟨2020, 1, 1⟩ = true ∧ dateLe ⟨2020, 1, 1⟩ ⟨2020, 12, 31⟩ = true ∧
    dateLe ⟨2020, 1, 1⟩ ⟨2020, 2, 1⟩ = true ∧ dateLe ⟨2020, 2, 1⟩ ⟨2020, 12, 31⟩ = true ∧
    Api.num_user_review_core
        [Api.ReviewRow.mk ["2020-01-01", "bad-date", "2020-02-01"] [true, false]]
        ⟨2020, 1, 1⟩ ⟨2020, 12, 31⟩ = (1, 100) :=
  ⟨by decide, by decide, by decide, by decide,
   (claim_C2_num_user_review_record ⟨2020, 1, 1⟩ ⟨2020, 12, 31⟩
      (by decide) (by decide) (by decide) (by decide)).2⟩

/-- Witness for C7: a range whose second token is not a date yields the
invalid-format error. -/
theorem claim_C7_witness :
    pySplitWs "2020-01-01 nodate" = ["2020-01-01", "nodate"] ∧
    Api.num_user_review [] "2020-01-01 nodate" = .error Api.invalidDateMsg :=
  ⟨rfl,
   (claim_C7_num_user_review_date_parse [] "2020-01-01 nodate" "2020-01-01" "nodate"
      rfl).1.mpr (Or.inr rfl)⟩


/-! Helper lemmas about the insertion-ordered dict used by `correspond`. -/

theorem dfind_append_single (a : String) (t : ℚ) (k : String) :
    ∀ d : List (String × ℚ),
      dfind (d ++ [(a, t)]) k =
        (match dfind d k with
         | some v => some v
         | _ => if a = k then some t else Option.none) := by
  intro d
  induction d with
  | nil =>
    by_cases h : a = k <;> simp [dfind, h]
  | cons p rest ih =>
    by_cases hp : p.1 = k <;> simp [dfind, hp, ih]

theorem dfind_mapAdd (a : String) (t : ℚ) (k : String) :
    ∀ d : List (String × ℚ),
      dfind (d.map (fun p => if p.1 = a then (p.1, p.2 + t) else p)) k =
        (dfind d k).map (fun v => if a = k then v + t else v) := by
  intro d
  induction d with
  | nil => simp [dfind]
  | cons p rest ih =>
    by_cases hpa : p.1 = a
    · by_cases hpk : p.1 = k
      · have hak : a = k := hpa.symm.trans hpk
        simp [dfind, hpa, hpk, hak]
      · have hak : ¬a = k := fun h => hpk (hpa.trans h)
        simp [dfind, hpa, hpk, hak, ih]
    · by_cases hpk : p.1 = k
      · have hak : ¬a = k := fun h => hpa (hpk.trans h.symm)
        have hka : ¬k = a := fun h => hak h.symm
        simp [dfind, hpa, hpk, hak, hka]
      · simp [dfind, hpa, hpk, ih]

theorem dgetD0_dictAdd (d : List (String × ℚ)) (a : String) (t : ℚ) (k : String) :
    dgetD0 (dictAdd d a t) k = dgetD0 d k + (if a = k then t else 0) := by
  unfold dictAdd
  by_cases hm : dmem d a
  · rw [if_pos hm]
    by_cases hak : a = k
    · subst hak
      have hs : (dfind d a).isSome := hm
      obtain ⟨v, hv⟩ := Option.isSome_iff_exists.mp hs
      simp [dgetD0, dfind_mapAdd, hv]
    · simp [dgetD0, dfind_mapAdd, hak]
  · rw [if_neg hm]
    by_cases hak : a = k
    · subst hak
      have hn : dfind d a = Option.none := by
        cases h : dfind d a with
        | none => rfl
        | some v => exact absurd (by simp [dmem, h]) hm
      simp [dgetD0, dfind_append_single, hn]
    · simp only [dgetD0, dfind_append_single, hak]
      cases dfind d k <;> simp

theorem dmem_dictAdd (d : List (String × ℚ)) (a : String) (t : ℚ) (k : String) :
    dmem (dictAdd d a t) k = (dmem d k || decide (a = k)) := by
  unfold dictAdd
  by_cases hm : dmem d a
  · rw [if_pos hm]
    by_cases hak : a = k
    · subst hak
      simp [dmem, dfind_mapAdd]
      exact hm
    · simp [dmem, dfind_mapAdd, hak]
  · rw [if_neg hm]
    by_cases hak : a = k
    · subst hak
      have hn : dfind d a = Option.none := by
        cases h : dfind d a with
        | none => rfl
        | some v => exact absurd (by simp [dmem, h]) hm
      simp [dmem, dfind_append_single, hn]
    · simp only [dmem, dfind_append_single, hak]
      cases dfind d k <;> simp

theorem dgetD0_foldAdd (pairs : List (String × ℚ)) :
    ∀ (d : List (String × ℚ)) (k : String),
      dgetD0 (pairs.foldl (fun d p => dictAdd d p.1 p.2) d) k =
        dgetD0 d k + pairSum k pairs := by
  induction pairs with
  | nil => intro d k; simp [pairSum]
  | cons p rest ih =>
    intro d k
    simp only [List.foldl_cons, ih, dgetD0_dictAdd, pairSum]
    ring

theorem dmem_foldAdd (pairs : List (String × ℚ)) :
    ∀ (d : List (String × ℚ)) (k : String),
      dmem (pairs.foldl (fun d p => dictAdd d p.1 p.2) d) k =
        (dmem d k || pairs.any (fun p => decide (p.1 = k))) := by
  induction pairs with
  | nil => intro d k; simp
  | cons p rest ih =>
    intro d k
    simp only [List.foldl_cons, ih, dmem_dictAdd, List.any_cons]
    cases dmem d k <;> simp [Bool.or_assoc]

theorem dfind_dictInit0 (d : List (String × ℚ)) (a : String) (k : String) :
    dfind (dictInit0 d a) k =
      (match dfind d k with
       | some v => some v
       | _ => if a = k then some 0 else Option.none) := by
  unfold dictInit0
  by_cases hm : dmem d a
  · rw [if_pos hm]
    by_cases hak : a = k
    · subst hak
      have hs : (dfind d a).isSome := hm
      obtain ⟨v, hv⟩ := Option.isSome_iff_exists.mp hs
      simp [hv]
    · cases h : dfind d k <;> simp [hak]
  · rw [if_neg hm]
    exact dfind_append_single a 0 k d

theorem dfind_foldInit (ids : List String) :
    ∀ (d : List (String × ℚ)) (k : String),
      dfind (ids.foldl dictInit0 d) k =
        (match dfind d k with
         | some v => some v
         | _ => if k ∈ ids then some 0 else Option.none) := by
  induction ids with
  | nil =>
    intro d k
    rw [List.foldl_nil]
    cases h : dfind d k <;> simp
  | cons a rest ih =>
    intro d k
    rw [List.foldl_cons, ih, dfind_dictInit0]
    cases hf : dfind d k with
    | some v => simp
    | none =>
      by_cases hak : a = k
      · subst hak
        simp [List.mem_cons]
      · have hka : ¬k = a := fun h => hak h.symm
        simp [List.mem_cons, hak, hka]

theorem correspondAux_append (r : List String × List ℚ) :
    ∀ (xs : List (List String × List ℚ)) (i : ℕ) (st : List (String × ℚ) × List ℕ),
      Eda.correspondAux (xs ++ [r]) i st =
        Eda.applyRow (Eda.correspondAux xs i st) (i + xs.length) r := by
  intro xs
  induction xs with
  | nil => intro i st; simp [Eda.correspondAux]
  | cons x rest ih =>
    intro i st
    show Eda.correspondAux (rest ++ [r]) (i + 1) (Eda.applyRow st i x) =
      Eda.applyRow (Eda.correspondAux rest (i + 1) (Eda.applyRow st i x))
        (i + (rest.length + 1)) r
    rw [ih]
    have harith : i + 1 + rest.length = i + (rest.length + 1) := by omega
    rw [harith]

theorem zip_any_fst (k : String) :
    ∀ (ids : List String) (times : List ℚ), ids.length = times.length →
      ((ids.zip times).any (fun p => decide (p.1 = k))) =
        ids.any (fun i => decide (i = k)) := by
  intro ids
  induction ids with
  | nil => intro times _; simp
  | cons a rest ih =>
    intro times h
    cases times with
    | nil => exact absurd h (by simp)
    | cons t ts =>
      simp only [List.zip_cons_cons, List.any_cons, ih ts (by simpa using h)]

theorem applyRow_eq_len (st : List (String × ℚ) × List ℕ) (idx : ℕ)
    (row : List String × List ℚ) (h : row.1.length = row.2.length) :
    Eda.applyRow st idx row =
      ((row.1.zip row.2).foldl (fun d p => dictAdd d p.1 p.2) st.1, st.2) := by
  simp [Eda.applyRow, h]

theorem applyRow_empty_times (st : List (String × ℚ) × List ℕ) (idx : ℕ)
    (ids : List String) (h : ids.length ≠ 0) :
    Eda.applyRow st idx (ids, ([] : List ℚ)) = (ids.foldl dictInit0 st.1, st.2) := by
  have h' : ¬((ids, ([] : List ℚ)).1.length = (ids, ([] : List ℚ)).2.length) := by
    simpa using h
  simp only [Eda.applyRow]
  rw [if_neg h', if_pos (show (([] : List ℚ).length = 0) from rfl)]

theorem applyRow_mismatch (st : List (String × ℚ) × List ℕ) (idx : ℕ)
    (row : List String × List ℚ) (h1 : row.1.length ≠ row.2.length)
    (h2 : row.2 ≠ []) :
    Eda.applyRow st idx row = (st.1, st.2 ++ [idx]) := by
  have h2' : ¬row.2.length = 0 := fun h => h2 (List.length_eq_zero.mp h)
  simp [Eda.applyRow, h1, h2']

/-- C3: `correspond`'s per-row rule, stated as the effect of appending one
row: an equal-length row adds each `(id, time)` pair into the running
total for its id (summing on repeat) and leaves the report unchanged; an
empty time-list row initializes exactly the ids not already present to `0`
and leaves accumulated values and the report unchanged; a
length-mismatched row with a non-empty time-list contributes nothing and
appends its index to the report.  On the rows
`[(["a","b"], [10,20]), (["a"], [])]` the result is
`({"a": 10, "b": 20}, [])`. -/
theorem claim_C3_correspond :
    Eda.correspond [(["a", "b"], [(10 : ℚ), 20]), (["a"], [])] =
      ([("a", (10 : ℚ)), ("b", 20)], []) ∧
    ∀ (rows : List (List String × List ℚ)) (ids : List String) (times : List ℚ)
      (k : String),
      (ids.length = times.length →
        dgetD0 (Eda.correspond (rows ++ [(ids, times)])).1 k =
          dgetD0 (Eda.correspond rows).1 k + pairSum k (ids.zip times) ∧
        dmem (Eda.correspond (rows ++ [(ids, times)])).1 k =
          (dmem (Eda.correspond rows).1 k || ids.any (fun i => decide (i = k))) ∧
        (Eda.correspond (rows ++ [(ids, times)])).2 = (Eda.correspond rows).2) ∧
      (ids.length ≠ times.length → times = [] →
        dfind (Eda.correspond (rows ++ [(ids, times)])).1 k =
          (match dfind (Eda.correspond rows).1 k with
           | some v => some v
           | _ => if k ∈ ids then some 0 else Option.none) ∧
        (Eda.correspond (rows ++ [(ids, times)])).2 = (Eda.correspond rows).2) ∧
      (ids.length ≠ times.length → times ≠ [] →
        (Eda.correspond (rows ++ [(ids, times)])).1 = (Eda.correspond rows).1 ∧
        (Eda.correspond (rows ++ [(ids, times)])).2 =
          (Eda.correspond rows).2 ++ [rows.length]) := by
  refine ⟨rfl, ?_⟩
  intro rows ids times k
  have happ : Eda.correspond (rows ++ [(ids, times)]) =
      Eda.applyRow (Eda.correspond rows) rows.length (ids, times) := by
    rw [Eda.correspond, correspondAux_append, Nat.zero_add]
    rfl
  refine ⟨?_, ?_, ?_⟩
  · intro hlen
    rw [happ, applyRow_eq_len _ _ _ hlen]
    exact ⟨dgetD0_foldAdd _ _ _,
      by rw [dmem_foldAdd, zip_any_fst k ids times hlen],
      rfl⟩
  · intro hlen hempty
    subst hempty
    have hne : ids.length ≠ 0 := by simpa using hlen
    rw [happ, applyRow_empty_times _ _ _ hne]
    exact ⟨dfind_foldInit _ _ _, rfl⟩
  · intro hlen hnon
    rw [happ, applyRow_mismatch _ _ _ hlen hnon]
    exact ⟨rfl, rfl⟩

/-- Witness for C3's per-row rule at a concrete consistent row. -/
theorem claim_C3_witness :
    (["x"].length = [(5 : ℚ)].length) ∧
    dgetD0 (Eda.correspond ([] ++ [(["x"], [(5 : ℚ)])])).1 "x" =
      dgetD0 (Eda.correspond []).1 "x" + pairSum "x" (["x"].zip [(5 : ℚ)]) :=
  ⟨rfl, ((claim_C3_correspond.2 [] ["x"] [5] "x").1 rfl).1⟩

theorem rankAux_absent (g : String) :
    ∀ (l : List (String × ℚ)) (i : ℕ), (∀ p ∈ l, p.1 ≠ g) → Api.rankAux g l i = 0 := by
  intro l
  induction l with
  | nil => intro i _; rfl
  | cons p rest ih =>
    intro i h
    have hp : ¬p.1 = g := h p (by simp)
    simp only [Api.rankAux, if_neg hp]
    exact ih (i + 1) (fun q hq => h q (by simp [hq]))

theorem rankAux_present (g : String) :
    ∀ (l : List (String × ℚ)) (i : ℕ), (∃ p ∈ l, p.1 = g) →
      ∃ k q, Api.rankAux g l i = i + k ∧ l.get? k = some q ∧ q.1 = g ∧
        ∀ j q', j < k → l.get? j = some q' → q'.1 ≠ g := by
  intro l
  induction l with
  | nil =>
    intro i h
    obtain ⟨p, hp, _⟩ := h
    exact absurd hp (by simp)
  | cons p rest ih =>
    intro i h
    by_cases hp : p.1 = g
    · refine ⟨0, p, ?_, rfl, hp, ?_⟩
      · simp [Api.rankAux, hp]
      · intro j q' hj _
        exact absurd hj (Nat.not_lt_zero j)
    · have htail : ∃ q ∈ rest, q.1 = g := by
        obtain ⟨q0, hq0, hq0g⟩ := h
        rcases List.mem_cons.mp hq0 with hhd | htl
        · exact absurd (hhd ▸ hq0g) hp
        · exact ⟨q0, htl, hq0g⟩
      obtain ⟨k, q, hrank, hget, hqg, hfirst⟩ := ih (i + 1) htail
      refine ⟨k + 1, q, ?_, by simpa using hget, hqg, ?_⟩
      · simp only [Api.rankAux, if_neg hp, hrank]
        omega
      · intro j q' hj hget'
        cases j with
        | zero =>
          intro hq'
          simp only [List.get?] at hget'
          exact hp ((Option.some.injEq _ _).mp hget' ▸ hq')
        | succ j' =>
          exact hfirst j' q' (by omega) (by simpa using hget')

/-- C9 (`genre_rank`, modelled from the spec because the function is
imported by `src/main.py` but missing from `src/`): a genre absent from
the aggregate gets rank `0`; a present genre's rank is its 1-based
position in the aggregate sorted by descending total time (the sorted
list being a permutation of the aggregate, sorted under `descTime`, and
the rank pointing at the first entry carrying the genre's name,
case-sensitively). -/
theorem claim_C9_genre_rank (agg : List (String × ℚ)) (g : String) :
    ((∀ p ∈ agg, p.1 ≠ g) → Api.genre_rank agg g = 0) ∧
    ((∃ p ∈ agg, p.1 = g) →
      (List.insertionSort Api.descTime agg).Perm agg ∧
      List.Sorted Api.descTime (List.insertionSort Api.descTime agg) ∧
      ∃ k q, Api.genre_rank agg g = k + 1 ∧
        (List.insertionSort Api.descTime agg).get? k = some q ∧ q.1 = g ∧
        ∀ j q', j < k → (List.insertionSort Api.descTime agg).get? j = some q' →
          q'.1 ≠ g) := by
  constructor
  · intro h
    apply rankAux_absent
    intro p hp
    exact h p ((List.perm_insertionSort Api.descTime agg).subset hp)
  · intro h
    refine ⟨List.perm_insertionSort Api.descTime agg,
      List.sorted_insertionSort Api.descTime agg, ?_⟩
    have hsorted : ∃ p ∈ List.insertionSort Api.descTime agg, p.1 = g := by
      obtain ⟨p, hp, hpg⟩ := h
      exact ⟨p, (List.perm_insertionSort Api.descTime agg).symm.subset hp, hpg⟩
    obtain ⟨k, q, hrank, hget, hqg, hfirst⟩ :=
      rankAux_present g (List.insertionSort Api.descTime agg) 1 hsorted
    exact ⟨k, q, by rw [Api.genre_rank, hrank, Nat.add_comm], hget, hqg, hfirst⟩

/-- Witness for C9 at a concrete aggregate (absent genre gets rank 0). -/
theorem claim_C9_witness :
    (∀ p ∈ [("rpg", (10 : ℚ)), ("fps", 5)], p.1 ≠ "puzzle") ∧
    Api.genre_rank [("rpg", (10 : ℚ)), ("fps", 5)] "puzzle" = 0 :=
  ⟨by decide, (claim_C9_genre_rank [("rpg", (10 : ℚ)), ("fps", 5)] "puzzle").1 (by decide)⟩

theorem convNumRows_vals (j : ℕ) :
    ∀ (rows : List (List PyVal)) (idx : ℕ),
      (DataPrep.convNumRows j rows idx).2 =
        rows.map (fun r => DataPrep.numericCellConv (r.getD j PyVal.none)) := by
  intro rows
  induction rows with
  | nil => intro idx; rfl
  | cons row rest ih =>
    intro idx
    simp only [DataPrep.convNumRows, List.map_cons, ← ih (idx + 1)]

theorem zipWith_set_map (j : ℕ) (g : List PyVal → PyVal) :
    ∀ rows : List (List PyVal),
      List.zipWith (fun row v => row.set j v) rows (rows.map g) =
        rows.map (fun r => r.set j (g r)) := by
  intro rows
  induction rows with
  | nil => rfl
  | cons r rest ih => simp only [List.map_cons, List.zipWith_cons_cons, ih]

/-- C10: with an existing target column, `convert_column_to_numeric`
succeeds and mutates only that column: the header is unchanged, the row
count and order are unchanged, every cell outside the target column is
unchanged, and the returned summary's `total_rows` equals the row count
both before and after the call. -/
theorem claim_C10_convert_numeric_frame (t : Table) (c : String) (hc : c ∈ t.cols) :
    ∃ t' s', DataPrep.convert_column_to_numeric t c = .ok (t', s') ∧
      t'.cols = t.cols ∧
      t'.rows.length = t.rows.length ∧
      (∀ i k, k ≠ t.colIdx c → t'.cellAt i k = t.cellAt i k) ∧
      s'.total_rows = t.rows.length ∧
      s'.total_rows = t'.rows.length := by
  have hrows : DataPrep.setCol t.rows (t.colIdx c)
        ((DataPrep.convNumRows (t.colIdx c) t.rows 0).2) =
      t.rows.map (fun r =>
        r.set (t.colIdx c) (DataPrep.numericCellConv (r.getD (t.colIdx c) PyVal.none))) := by
    rw [convNumRows_vals (t.colIdx c) t.rows 0, DataPrep.setCol, zipWith_set_map]
  have heq : DataPrep.convert_column_to_numeric t c =
      .ok (⟨t.cols, DataPrep.setCol t.rows (t.colIdx c)
              ((DataPrep.convNumRows (t.colIdx c) t.rows 0).2)⟩,
           { total_rows := (DataPrep.setCol t.rows (t.colIdx c)
               ((DataPrep.convNumRows (t.colIdx c) t.rows 0).2)).length,
             column_name := c,
             num_failed_conversions := (DataPrep.convNumRows (t.colIdx c) t.rows 0).1.length,
             report := (DataPrep.convNumRows (t.colIdx c) t.rows 0).1 }) := by
    rw [DataPrep.convert_column_to_numeric, if_pos hc]
  refine ⟨_, _, heq, rfl, ?_, ?_, ?_, rfl⟩
  · show (DataPrep.setCol t.rows (t.colIdx c)
      ((DataPrep.convNumRows (t.colIdx c) t.rows 0).2)).length = t.rows.length
    rw [hrows, List.length_map]
  · intro i k hk
    show ((DataPrep.setCol t.rows (t.colIdx c)
        ((DataPrep.convNumRows (t.colIdx c) t.rows 0).2)).get? i).bind
          (fun r => r.get? k) =
      (t.rows.get? i).bind (fun r => r.get? k)
    rw [hrows]
    rw [List.get?_map]
    cases t.rows.get? i with
    | none => rfl
    | some r =>
      show ((r.set (t.colIdx c) _).get? k) = r.get? k
      exact List.get?_set_ne _ _ (fun h => hk h.symm)
  · show (DataPrep.setCol t.rows (t.colIdx c)
      ((DataPrep.convNumRows (t.colIdx c) t.rows 0).2)).length = t.rows.length
    rw [hrows, List.length_map]

/-- Witness for C10 at a concrete two-column table. -/
theorem claim_C10_witness :
    ("a" ∈ (Table.mk ["a", "b"] [[PyVal.str "3", PyVal.int 7]]).cols) ∧
    (∃ t' s', DataPrep.convert_column_to_numeric
          ⟨["a", "b"], [[PyVal.str "3", PyVal.int 7]]⟩ "a" = .ok (t', s') ∧
      t'.cols = (Table.mk ["a", "b"] [[PyVal.str "3", PyVal.int 7]]).cols ∧
      t'.rows.length = (Table.mk ["a", "b"] [[PyVal.str "3", PyVal.int 7]]).rows.length ∧
      (∀ i k, k ≠ Table.colIdx ⟨["a", "b"], [[PyVal.str "3", PyVal.int 7]]⟩ "a" →
        t'.cellAt i k = Table.cellAt ⟨["a", "b"], [[PyVal.str "3", PyVal.int 7]]⟩ i k) ∧
      s'.total_rows = (Table.mk ["a", "b"] [[PyVal.str "3", PyVal.int 7]]).rows.length ∧
      s'.total_rows = t'.rows.length) :=
  ⟨by decide, claim_C10_convert_numeric_frame ⟨["a", "b"], [[PyVal.str "3", PyVal.int 7]]⟩
      "a" (by decide)⟩
